import Mathlib

/-!
Verification development for the `colorful-light2d` repository, a 2D SDF
(light-transport) renderer.  `f64` arithmetic is idealised as real-number
arithmetic (`ℝ`); machine integers (`u32`, `u8`, `usize`) are `ℕ`.

The embedding follows the two source files:
* `src/shape.rs` — the `SdfResult` value, the `Shape` trait with its primitive
  variants (`Circle`, `Plane`, `Capsule`, `Rect`, `Triangle`) and its boolean
  combinators (`UnionShape`, `IntersectShape`, `SubtractShape`), modelled as a
  closed inductive tree `ShapeT` with evaluator `shapeSdf`;
* `src/scene.rs` — the `Scene` (a raw `Vec<Circle>` with fold-based union),
  the sphere-tracing loop `trace`, the Monte-Carlo `sample`, and the buffer
  production of `render_to_file`.  The random generator is external to the
  core, so it is passed in as an explicit stream of jitter values.
-/

namespace Light2D

noncomputable section

/-- `SdfResult` from `src/shape.rs` (the identical private struct appears in
`src/scene.rs`): a signed distance together with the surface's emissive. -/
structure SdfResult where
  sd : ℝ
  emissive : ℝ

/-- `Triangle::segment_sdf` from `src/shape.rs`: distance from `(x, y)` to the
segment `A`–`B`, the clamp parameter `t = ((v·u)/(u·u)).min(1.0).max(0.0)`.
Lean's total division gives `0/0 = 0` for a degenerate segment; Rust's `f64`
gives `NaN` there, which `min`/`max` absorb to `t = 1.0` — in both cases
`u = 0` makes the result the distance from the query point to `A`. -/
def segmentSdf (x y ax ay bx byv : ℝ) : ℝ :=
  let vx := x - ax
  let vy := y - ay
  let ux := bx - ax
  let uy := byv - ay
  let t := max (min ((vx * ux + vy * uy) / (ux * ux + uy * uy)) 1) 0
  let dx := vx - ux * t
  let dy := vy - uy * t
  Real.sqrt (dx * dx + dy * dy)

/-- The `Shape` trait of `src/shape.rs` as a closed tagged-variant tree: one
constructor per primitive struct and per boolean-combinator struct.  The
`r` field of `rect` and `triangle` is the rounded-corner radius the source
declares (and its constructors fix at `0.0`); the `sdf` implementations never
read it. -/
inductive ShapeT where
  | circle (ox oy r emissive : ℝ)
  | plane (px py nx ny emissive : ℝ)
  | capsule (ax ay bx byv r emissive : ℝ)
  | rect (cx cy theta sx sy emissive r : ℝ)
  | triangle (ax ay bx byv cx cy emissive r : ℝ)
  | union (shape1 shape2 : ShapeT)
  | intersect (shape1 shape2 : ShapeT)
  | subtract (shape1 shape2 : ShapeT)

/-- The `sdf` method of every `Shape` implementation in `src/shape.rs`,
variant by variant. -/
def shapeSdf : ShapeT → ℝ → ℝ → SdfResult
  | .circle ox oy r e, x, y =>
      let ux := x - ox
      let uy := y - oy
      ⟨Real.sqrt (ux * ux + uy * uy) - r, e⟩
  | .plane px py nx ny e, x, y =>
      ⟨(x - px) * nx + (y - py) * ny, e⟩
  | .capsule ax ay bx byv r e, x, y =>
      let vx := x - ax
      let vy := y - ay
      let ux := bx - ax
      let uy := byv - ay
      let t := max (min ((vx * ux + vy * uy) / (ux * ux + uy * uy)) 1) 0
      let dx := vx - ux * t
      let dy := vy - uy * t
      ⟨Real.sqrt (dx * dx + dy * dy) - r, e⟩
  | .rect cx cy theta sx sy e _r, x, y =>
      let sinTheta := Real.sin theta
      let cosTheta := Real.cos theta
      let dx := |(x - cx) * cosTheta + (y - cy) * sinTheta| - sx
      let dy := |(y - cy) * cosTheta - (x - cx) * sinTheta| - sy
      let ax := max dx 0
      let ay := max dy 0
      ⟨min (max dx dy) 0 + Real.sqrt (ax * ax + ay * ay), e⟩
  | .triangle ax ay bx byv cx cy e _r, x, y =>
      let r1 := segmentSdf x y ax ay bx byv
      let r2 := segmentSdf x y bx byv cx cy
      let r3 := segmentSdf x y cx cy ax ay
      let sd := min (min r1 r2) r3
      if (bx - ax) * (y - ay) > (byv - ay) * (x - ax) ∧
         (cx - bx) * (y - byv) > (cy - byv) * (x - bx) ∧
         (ax - cx) * (y - cy) > (ay - cy) * (x - cx) then
        ⟨-sd, e⟩
      else
        ⟨sd, e⟩
  | .union shape1 shape2, x, y =>
      let result1 := shapeSdf shape1 x y
      let result2 := shapeSdf shape2 x y
      if result1.sd < result2.sd then result1 else result2
  | .intersect shape1 shape2, x, y =>
      let result1 := shapeSdf shape1 x y
      let result2 := shapeSdf shape2 x y
      if result1.sd > result2.sd then { result2 with sd := result1.sd }
      else { result1 with sd := result2.sd }
  | .subtract shape1 shape2, x, y =>
      let result1 := shapeSdf shape1 x y
      let result2 := shapeSdf shape2 x y
      { result1 with sd := if result1.sd > -result2.sd then result1.sd else -result2.sd }

/-- The `Circle` struct private to `src/scene.rs` (the scene holds a raw
`Vec<Circle>`). -/
structure Circle where
  ox : ℝ
  oy : ℝ
  r : ℝ
  emissive : ℝ

/-- `Circle::sdf` from `src/scene.rs`. -/
def Circle.sdf (c : Circle) (x y : ℝ) : SdfResult :=
  let ux := x - c.ox
  let uy := y - c.oy
  ⟨Real.sqrt (ux * ux + uy * uy) - c.r, c.emissive⟩

/-- `f64::MAX`, exactly `(2 - 2^-52) * 2^1023`. -/
def f64Max : ℝ := 2 ^ 1024 - 2 ^ 971

/-- `EPSILON` from `src/scene.rs`. -/
def EPSILON : ℝ := 1e-6

/-- `TWO_PI` from `src/scene.rs` (the source's literal, not the real `2π`). -/
def TWO_PI : ℝ := 6.28318530718

/-- The `Scene` struct of `src/scene.rs`.  `width`/`height` are `u32`,
`sample_count` is `u8` and `max_step` is `usize` in the source; all are
modelled as `ℕ`, with range hypotheses stated where a theorem needs them. -/
structure Scene where
  width : ℕ
  height : ℕ
  shapes : List Circle
  sampleCount : ℕ
  maxStep : ℕ

/-- `Scene::new` from `src/scene.rs`: no validation of any kind; the shape
list starts empty and `sample_count`/`max_step` are fixed at 64 and 10. -/
def Scene.new (width height : ℕ) : Scene :=
  { width := width, height := height, sampleCount := 64, shapes := [], maxStep := 10 }

/-- `Scene::union_sd` from `src/scene.rs`. -/
def unionSd (result_a result_b : SdfResult) : SdfResult :=
  if result_a.sd < result_b.sd then result_a else result_b

/-- `Scene::sdf` from `src/scene.rs`: fold `union_sd` over the circle list,
starting from the identity sample `{ sd: f64::MAX, emissive: 0.0 }`. -/
def Scene.sdf (s : Scene) (x y : ℝ) : SdfResult :=
  s.shapes.foldl (fun result shape => unionSd (shape.sdf x y) result) ⟨f64Max, 0⟩

/-- The `max_distance` computed at the top of `Scene::trace` in
`src/scene.rs`.  The source reads
`((self.width.pow(2) + self.width.pow(2)) as f64).sqrt()` — `width` twice. -/
def Scene.maxDistance (s : Scene) : ℝ :=
  Real.sqrt ((s.width ^ 2 + s.width ^ 2 : ℕ) : ℝ)

/-- The marching loop body of `Scene::trace` from `src/scene.rs`, with the
loop counter made an explicit fuel argument and the current `distance`
threaded through.  One iteration: query the scene SDF at the advanced point;
return the query's `emissive` if its `sd` is below `EPSILON`; otherwise add
`sd` to `distance` and stop with `0.0` once `distance >= max_distance`. -/
def traceAux (f : ℝ → ℝ → SdfResult) (x y dx dy maxDist : ℝ) : ℕ → ℝ → ℝ
  | 0, _ => 0
  | n + 1, distance =>
      let result := f (x + dx * distance) (y + dy * distance)
      if result.sd < EPSILON then result.emissive
      else if maxDist ≤ distance + result.sd then 0
      else traceAux f x y dx dy maxDist n (distance + result.sd)

/-- `Scene::trace` from `src/scene.rs`. -/
def Scene.trace (s : Scene) (x y dx dy : ℝ) : ℝ :=
  traceAux s.sdf x y dx dy s.maxDistance s.maxStep 0

/-- The accumulator loop of `Scene::sample` from `src/scene.rs`: sum over the
`sample_count` jittered directions.  `jit i` stands for the source's
`rng.gen_range(0.0..1.0)` drawn at iteration `i` (the random source is
external to the core). -/
def Scene.sampleSum (s : Scene) (x y : ℝ) (jit : ℕ → ℝ) : ℝ :=
  ∑ i in Finset.range s.sampleCount,
    s.trace x y (Real.cos (TWO_PI * ((i : ℝ) + jit i) / (s.sampleCount : ℝ)))
                (Real.sin (TWO_PI * ((i : ℝ) + jit i) / (s.sampleCount : ℝ)))

/-- Rust's saturating `f64 as u8` cast: truncate toward zero, clamping to
`[0, 255]` (`Int.toNat` sends every negative floor to `0`). -/
def f64AsU8 (r : ℝ) : ℕ :=
  (min 255 ⌊r⌋).toNat

/-- `Scene::sample` from `src/scene.rs`: average the traced contributions,
scale by 255, clamp above at 255 (`if sum >= 255.0`), then cast with
`as u8`. -/
def Scene.sample (s : Scene) (x y : ℝ) (jit : ℕ → ℝ) : ℕ :=
  let m := s.sampleSum x y jit / (s.sampleCount : ℝ) * 255
  f64AsU8 (if 255 ≤ m then 255 else m)

/-- One pixel of `Scene::render_to_file`: `self.sample(x as f64, y as f64)`
with that pixel's jitter stream. -/
def Scene.pixel (s : Scene) (jit2 : ℕ → ℕ → ℕ → ℝ) (x y : ℕ) : ℕ :=
  s.sample (x : ℝ) (y : ℝ) (jit2 x y)

/-- The buffer `Scene::render_to_file` hands to `save_to_file`.  The source
allocates `width * height * 3` bytes and writes position
`(y * width + x) * 3 + c` (for `c < 3`) exactly once per pixel, so byte `k`
holds the sample of the pixel with linear index `k / 3`, i.e.
`x = (k / 3) % width`, `y = (k / 3) / width`. -/
def Scene.renderBuffer (s : Scene) (jit2 : ℕ → ℕ → ℕ → ℝ) : List ℕ :=
  (List.range (s.width * s.height * 3)).map fun k =>
    s.pixel jit2 ((k / 3) % s.width) ((k / 3) / s.width)

/-- The error taxonomy of the spec's §7. -/
inductive RenderError where
  | invalidConfig
deriving DecidableEq

/-- `Scene::render_to_file` from `src/scene.rs`, as the value delivered to
the external image sink.  The source has no fallible path before the sink
call: it unconditionally builds the buffer and passes it on, so the modelled
result is always `.ok`; a configuration rejection before the sink would be
`.error`. -/
def Scene.renderToFile (s : Scene) (jit2 : ℕ → ℕ → ℕ → ℝ) : Except RenderError (List ℕ) :=
  .ok (s.renderBuffer jit2)

/-- Modelled from the spec: the `InvalidConfig` validation of §7 ("width = 0,
height = 0, sample_count = 0, or max_step = 0 — rejected before any rendering
work begins").  No counterpart exists in the source; this is the spec-side
definition the code is compared against. -/
def validateConfig (width height sampleCount maxStep : ℕ) : Except RenderError Unit :=
  if width = 0 ∨ height = 0 ∨ sampleCount = 0 ∨ maxStep = 0 then
    .error .invalidConfig
  else
    .ok ()

/-- Modelled from the spec: pixel intensity
`clamp(mean(contributions) * 255, 0, 255)` truncated to an 8-bit value
(spec §4.3 step 4).  Spec-side definition, compared with `Scene.sample`. -/
def pixelIntensitySpec (s : Scene) (x y : ℝ) (jit : ℕ → ℝ) : ℕ :=
  (⌊min 255 (max 0 (s.sampleSum x y jit / (s.sampleCount : ℝ) * 255))⌋).toNat

/-- The accumulated march distance of the spec's §4.3 state machine: `d 0 = 0`
and `d (n+1) = d n` plus the signed distance queried at step `n`. -/
def marchDist (f : ℝ → ℝ → SdfResult) (x y dx dy : ℝ) : ℕ → ℝ
  | 0 => 0
  | n + 1 =>
      marchDist f x y dx dy n +
        (f (x + dx * marchDist f x y dx dy n) (y + dy * marchDist f x y dx dy n)).sd

/-- The Surface Sample queried at step `i` of the march. -/
def queryAt (f : ℝ → ℝ → SdfResult) (x y dx dy : ℝ) (i : ℕ) : SdfResult :=
  f (x + dx * marchDist f x y dx dy i) (y + dy * marchDist f x y dx dy i)

end

/-! ## Helper lemmas -/

lemma two_pow_33_le_f64Max : (2 : ℝ) ^ 33 ≤ f64Max := by
  rw [f64Max]
  norm_num

lemma epsilon_le_f64Max : EPSILON ≤ f64Max := by
  have := two_pow_33_le_f64Max
  rw [EPSILON]
  norm_num at this ⊢
  linarith

lemma shapeSdf_circle_center (ox oy r e : ℝ) :
    shapeSdf (.circle ox oy r e) ox oy = ⟨-r, e⟩ := by
  simp [shapeSdf, Real.sqrt_zero]

lemma circleSdf_center (ox oy r e : ℝ) :
    Circle.sdf ⟨ox, oy, r, e⟩ ox oy = ⟨-r, e⟩ := by
  simp [Circle.sdf, Real.sqrt_zero]

lemma sdf_single_circle (c : Circle) (w h sc ms : ℕ) (x y : ℝ) :
    (Scene.mk w h [c] sc ms).sdf x y = unionSd (c.sdf x y) ⟨f64Max, 0⟩ := rfl

lemma unionSd_of_lt (a b : SdfResult) (h : a.sd < b.sd) : unionSd a b = a := by
  rw [unionSd, if_pos h]

lemma sdf_single_circle_center (ox oy : ℝ) (r e : ℝ) (w h sc ms : ℕ) (hr : 0 < r) :
    (Scene.mk w h [⟨ox, oy, r, e⟩] sc ms).sdf ox oy = ⟨-r, e⟩ := by
  rw [sdf_single_circle, circleSdf_center, unionSd_of_lt]
  have := two_pow_33_le_f64Max
  show -r < f64Max
  nlinarith

/-! ## Claim theorems -/

/-- Claim C9: every Shape variant's `sdf` is a pure function of the shape and
the query point — the source methods take `&self`, mutate nothing and use no
global or random state, so the shallow embedding is a function and two
evaluations at the same point are identical.  This covers the `Shape` tree of
`src/shape.rs` as well as the `Circle::sdf` and `Scene::sdf` of
`src/scene.rs`. -/
theorem sdf_idempotent (s : ShapeT) (c : Circle) (sc : Scene) (x y : ℝ) :
    shapeSdf s x y = shapeSdf s x y ∧
    c.sdf x y = c.sdf x y ∧
    sc.sdf x y = sc.sdf x y :=
  ⟨rfl, rfl, rfl⟩

/-- Claim C4: `Subtract(A,B).sdf(p)` returns
`sd = max(A.sdf(p).sd, -B.sdf(p).sd)` and always `A`'s emissive — the source
overwrites `result1.sd` and returns `result1`, so shape2 never contributes
emission; in particular, at a point strictly inside `A` and outside `B` the
emissive is `A`'s. -/
theorem subtract_sdf_spec (s1 s2 : ShapeT) (x y : ℝ) :
    shapeSdf (.subtract s1 s2) x y =
      ⟨max (shapeSdf s1 x y).sd (-(shapeSdf s2 x y).sd), (shapeSdf s1 x y).emissive⟩ := by
  simp only [shapeSdf, SdfResult.mk.injEq]
  refine ⟨?_, by trivial⟩
  rw [max_def]
  split_ifs <;> linarith

/-- Claim C5: `Union(A,B).sdf(p)` returns the full Surface Sample of the
child with the strictly smaller signed distance (ties go to `shape2`), so the
distance is `min(d1, d2)` and the emissive is the winning branch's; the same
holds for `Scene::union_sd` in `src/scene.rs`. -/
theorem union_sdf_spec (s1 s2 : ShapeT) (a b : SdfResult) (x y : ℝ) :
    (shapeSdf (.union s1 s2) x y).sd = min (shapeSdf s1 x y).sd (shapeSdf s2 x y).sd
    ∧ ((shapeSdf s1 x y).sd < (shapeSdf s2 x y).sd →
        shapeSdf (.union s1 s2) x y = shapeSdf s1 x y)
    ∧ ((shapeSdf s2 x y).sd ≤ (shapeSdf s1 x y).sd →
        shapeSdf (.union s1 s2) x y = shapeSdf s2 x y)
    ∧ (unionSd a b).sd = min a.sd b.sd
    ∧ (a.sd < b.sd → unionSd a b = a)
    ∧ (b.sd ≤ a.sd → unionSd a b = b) := by
  refine ⟨?_, ?_, ?_, ?_, ?_, ?_⟩ <;> simp only [shapeSdf, unionSd]
  · rw [min_def]; split_ifs <;> first | rfl | linarith
  · intro h; rw [if_pos h]
  · intro h; rw [if_neg (not_lt.mpr h)]
  · rw [min_def]; split_ifs <;> first | rfl | linarith
  · intro h; rw [if_pos h]
  · intro h; rw [if_neg (not_lt.mpr h)]

/-- Witness for C5: two concentric circles at their common center — the outer
one (distance −2, emissive 7) wins the union, both for the `Shape` tree and
for `Scene::union_sd`. -/
theorem union_sdf_spec_witness :
    shapeSdf (.union (.circle 0 0 1 5) (.circle 0 0 2 7)) 0 0 = shapeSdf (.circle 0 0 2 7) 0 0
    ∧ unionSd ⟨1, 5⟩ ⟨0, 7⟩ = ⟨0, 7⟩ := by
  refine ⟨(union_sdf_spec (.circle 0 0 1 5) (.circle 0 0 2 7) ⟨1, 5⟩ ⟨0, 7⟩ 0 0).2.2.1 ?_,
          (union_sdf_spec (.circle 0 0 1 5) (.circle 0 0 2 7) ⟨1, 5⟩ ⟨0, 7⟩ 0 0).2.2.2.2.2 ?_⟩
  · rw [shapeSdf_circle_center, shapeSdf_circle_center]
    norm_num
  · norm_num

/-- Counterexample for C1: for `A = Circle(0,0,1,emissive 10)` and
`B = Circle(0,0,2,emissive 20)` at the origin, `A` supplies the maximum
signed distance (−1 > −2), so the claim demands emissive 10; the code returns
`{ sd = -1, emissive = 20 }` — the two fields come from different branches. -/
theorem intersect_emissive_cex :
    (shapeSdf (.circle 0 0 1 10) 0 0).sd = -1
    ∧ (shapeSdf (.circle 0 0 2 20) 0 0).sd = -2
    ∧ (shapeSdf (.circle 0 0 1 10) 0 0).emissive = 10
    ∧ max (shapeSdf (.circle 0 0 1 10) 0 0).sd (shapeSdf (.circle 0 0 2 20) 0 0).sd
        = (shapeSdf (.circle 0 0 1 10) 0 0).sd
    ∧ shapeSdf (.intersect (.circle 0 0 1 10) (.circle 0 0 2 20)) 0 0 = ⟨-1, 20⟩
    ∧ (10 : ℝ) ≠ 20 := by
  rw [show shapeSdf (.intersect (.circle 0 0 1 10) (.circle 0 0 2 20)) 0 0 =
        (if (shapeSdf (.circle 0 0 1 10) 0 0).sd > (shapeSdf (.circle 0 0 2 20) 0 0).sd then
          { shapeSdf (.circle 0 0 2 20) 0 0 with sd := (shapeSdf (.circle 0 0 1 10) 0 0).sd }
        else { shapeSdf (.circle 0 0 1 10) 0 0 with sd := (shapeSdf (.circle 0 0 2 20) 0 0).sd })
      from rfl]
  rw [shapeSdf_circle_center, shapeSdf_circle_center]
  norm_num

/-- Claim C1 amended: `Intersect(A,B).sdf(p)` has `sd = max(d1, d2)`, but its
emissive comes from the child with the *smaller* signed distance (the code
returns the min-branch sample with its `sd` overwritten by the max; on ties
shape1's emissive is kept). -/
theorem intersect_sdf_amended (s1 s2 : ShapeT) (x y : ℝ) :
    (shapeSdf (.intersect s1 s2) x y).sd
        = max (shapeSdf s1 x y).sd (shapeSdf s2 x y).sd
    ∧ (shapeSdf (.intersect s1 s2) x y).emissive
        = (if (shapeSdf s2 x y).sd < (shapeSdf s1 x y).sd then (shapeSdf s2 x y).emissive
           else (shapeSdf s1 x y).emissive) := by
  constructor <;> simp only [shapeSdf]
  · rw [max_def]
    split_ifs <;> first | rfl | linarith
  · split_ifs <;> rfl

/-- Claim C6: the segment-projection division is total — for a degenerate
zero-length segment (`A = B`) the capsule SDF returns the distance from the
query point to that single point minus the radius, and `Triangle::segment_sdf`
returns the distance to that point.  (In the source the division yields `NaN`,
which `min(1.0).max(0.0)` absorbs to `t = 1.0`; with `u = 0` the result is the
same distance-to-`A` the embedding's total division produces.) -/
theorem degenerate_segment_spec (ax ay r e x y : ℝ) :
    shapeSdf (.capsule ax ay ax ay r e) x y =
      ⟨Real.sqrt ((x - ax) * (x - ax) + (y - ay) * (y - ay)) - r, e⟩
    ∧ segmentSdf x y ax ay ax ay =
      Real.sqrt ((x - ax) * (x - ax) + (y - ay) * (y - ay)) := by
  constructor
  · simp [shapeSdf]
  · simp [segmentSdf]

/-- Claim C2, at the repository's own 512×384 test scene: the march bound the
code computes is `sqrt(width² + width²) = 512·√2`, not the image diagonal
`sqrt(width² + height²) = 640` the claim states — `Scene::trace` reads
`self.width.pow(2) + self.width.pow(2)`. -/
theorem maxDistance_uses_width_twice :
    (Scene.new 512 384).maxDistance = 512 * Real.sqrt 2
    ∧ Real.sqrt ((512 : ℝ) ^ 2 + (384 : ℝ) ^ 2) = 640
    ∧ (Scene.new 512 384).maxDistance ≠ Real.sqrt ((512 : ℝ) ^ 2 + (384 : ℝ) ^ 2) := by
  have h640 : Real.sqrt ((512 : ℝ) ^ 2 + (384 : ℝ) ^ 2) = 640 := by
    rw [show (512 : ℝ) ^ 2 + (384 : ℝ) ^ 2 = 640 ^ 2 by norm_num]
    exact Real.sqrt_sq (by norm_num)
  have hcode : (Scene.new 512 384).maxDistance = 512 * Real.sqrt 2 := by
    rw [Scene.maxDistance, Scene.new]
    rw [show (((512 : ℕ) ^ 2 + (512 : ℕ) ^ 2 : ℕ) : ℝ) = (512 : ℝ) ^ 2 * 2 by norm_num]
    rw [Real.sqrt_mul (by positivity), Real.sqrt_sq (by norm_num)]
  refine ⟨hcode, h640, ?_⟩
  rw [hcode, h640]
  intro hcontra
  have hsq : (512 * Real.sqrt 2) ^ 2 = 524288 := by
    rw [mul_pow, Real.sq_sqrt (by norm_num : (0 : ℝ) ≤ 2)]
    norm_num
  rw [hcontra] at hsq
  norm_num at hsq

/-- Counterexample for C3: with `width = 0` the render is not rejected — the
code has no validation and no error value; it delivers the (empty) buffer to
the image sink, while the spec-side validation `validateConfig` would reject
the same configuration. -/
theorem render_no_validation_cex :
    (Scene.new 0 5).renderToFile (fun _ _ _ => 0) = .ok []
    ∧ validateConfig 0 5 64 10 = .error .invalidConfig := by
  constructor
  · rw [Scene.renderToFile, Scene.renderBuffer]
    norm_num [Scene.new]
  · rw [validateConfig, if_pos (Or.inl rfl)]

/-- Claim C3 amended: the code performs no configuration validation.
`Scene::new` accepts any `width`/`height` (including 0) and hardcodes
`sample_count = 64` and `max_step = 10` (so those are never 0), and
`render_to_file` never errors: it always hands the image sink a buffer of
exactly `width · height · 3` bytes (empty when `width` or `height` is 0). -/
theorem render_total_amended (w h : ℕ) (jit2 : ℕ → ℕ → ℕ → ℝ) :
    (Scene.new w h).renderToFile jit2 = .ok ((Scene.new w h).renderBuffer jit2)
    ∧ ((Scene.new w h).renderBuffer jit2).length = w * h * 3
    ∧ (Scene.new w h).sampleCount = 64
    ∧ (Scene.new w h).maxStep = 10 := by
  refine ⟨rfl, ?_, rfl, rfl⟩
  rw [Scene.renderBuffer]
  simp [Scene.new]

lemma marchDist_succ (f : ℝ → ℝ → SdfResult) (x y dx dy : ℝ) (i : ℕ) :
    marchDist f x y dx dy (i + 1) = marchDist f x y dx dy i + (queryAt f x y dx dy i).sd := rfl

lemma traceAux_hit (f : ℝ → ℝ → SdfResult) (x y dx dy maxDist : ℝ) :
    ∀ n i k : ℕ, i ≤ k → k < i + n →
    (∀ j, i ≤ j → j < k → ¬(queryAt f x y dx dy j).sd < EPSILON ∧
        marchDist f x y dx dy (j + 1) < maxDist) →
    (queryAt f x y dx dy k).sd < EPSILON →
    traceAux f x y dx dy maxDist n (marchDist f x y dx dy i)
      = (queryAt f x y dx dy k).emissive := by
  intro n
  induction n with
  | zero =>
    intro i k hik hkn _ _
    omega
  | succ n ih =>
    intro i k hik hkn hpre hhit
    have hq : f (x + dx * marchDist f x y dx dy i) (y + dy * marchDist f x y dx dy i)
        = queryAt f x y dx dy i := rfl
    rcases eq_or_lt_of_le hik with hcase | hcase
    · subst hcase
      simp only [traceAux, hq]
      rw [if_pos hhit]
    · obtain ⟨hnohit, hlt⟩ := hpre i le_rfl hcase
      simp only [traceAux, hq]
      rw [if_neg hnohit, ← marchDist_succ, if_neg (not_le.mpr hlt)]
      exact ih (i + 1) k hcase (by omega) (fun j hj1 hj2 => hpre j (by omega) hj2) hhit

lemma traceAux_miss (f : ℝ → ℝ → SdfResult) (x y dx dy maxDist : ℝ) :
    ∀ n i : ℕ,
    (∀ k, i ≤ k → k < i + n →
      (∀ j, i ≤ j → j < k → ¬(queryAt f x y dx dy j).sd < EPSILON ∧
          marchDist f x y dx dy (j + 1) < maxDist) →
      ¬(queryAt f x y dx dy k).sd < EPSILON) →
    traceAux f x y dx dy maxDist n (marchDist f x y dx dy i) = 0 := by
  intro n
  induction n with
  | zero =>
    intro i _
    rfl
  | succ n ih =>
    intro i hpre
    have hq : f (x + dx * marchDist f x y dx dy i) (y + dy * marchDist f x y dx dy i)
        = queryAt f x y dx dy i := rfl
    have hnohit : ¬(queryAt f x y dx dy i).sd < EPSILON :=
      hpre i le_rfl (by omega) (fun j hj1 hj2 => ((Nat.lt_irrefl i) (lt_of_le_of_lt hj1 hj2)).elim)
    simp only [traceAux, hq]
    rw [if_neg hnohit, ← marchDist_succ]
    by_cases hb : maxDist ≤ marchDist f x y dx dy (i + 1)
    · rw [if_pos hb]
    · rw [if_neg hb]
      refine ih (i + 1) (fun k hk1 hk2 hinner => hpre k (by omega) (by omega) ?_)
      intro j hj1 hj2
      rcases eq_or_lt_of_le hj1 with hji | hji
      · exact hji ▸ ⟨hnohit, not_le.mp hb⟩
      · exact hinner j hji hj2

/-- Claim C7: the sphere-tracing state machine of `Scene::trace`.  If the
march reaches a step `i < max_step` (every earlier reached query had
`sd ≥ ε` and kept the accumulated distance below `max_distance`) whose
queried signed distance is below `ε = 1e-6`, the sample's contribution is
that very query's emissive; if no reached query within `max_step` steps hits,
the contribution is exactly `0`. -/
theorem trace_hit_miss_spec (s : Scene) (x y dx dy : ℝ) :
    (∀ i, i < s.maxStep →
      (∀ j, j < i → ¬(queryAt s.sdf x y dx dy j).sd < EPSILON ∧
          marchDist s.sdf x y dx dy (j + 1) < s.maxDistance) →
      (queryAt s.sdf x y dx dy i).sd < EPSILON →
      s.trace x y dx dy = (queryAt s.sdf x y dx dy i).emissive)
    ∧ ((∀ i, i < s.maxStep →
        (∀ j, j < i → ¬(queryAt s.sdf x y dx dy j).sd < EPSILON ∧
            marchDist s.sdf x y dx dy (j + 1) < s.maxDistance) →
        ¬(queryAt s.sdf x y dx dy i).sd < EPSILON) →
      s.trace x y dx dy = 0) := by
  constructor
  · intro i hi hpre hhit
    exact traceAux_hit s.sdf x y dx dy s.maxDistance s.maxStep 0 i (Nat.zero_le i)
      (by omega) (fun j _ hj2 => hpre j hj2) hhit
  · intro hmiss
    exact traceAux_miss s.sdf x y dx dy s.maxDistance s.maxStep 0
      (fun k _ hk2 hinner => hmiss k (by omega) (fun j hj => hinner j (Nat.zero_le j) hj))

/-- Witness for C7: a 1×1 scene holding `Circle(0, 0, 1, emissive 2)`.  The
very first query of the march from the origin lies inside the circle
(`sd = -1 < ε`), so the trace stops in the Hit state with contribution 2. -/
theorem trace_hit_miss_witness :
    (Scene.mk 1 1 [⟨0, 0, 1, 2⟩] 64 10).trace 0 0 1 0 = 2 := by
  have hq : queryAt (Scene.mk 1 1 [⟨0, 0, 1, 2⟩] 64 10).sdf 0 0 1 0 0 = ⟨-1, 2⟩ := by
    show (Scene.mk 1 1 [⟨0, 0, 1, 2⟩] 64 10).sdf (0 + 1 * marchDist _ 0 0 1 0 0)
        (0 + 0 * marchDist _ 0 0 1 0 0) = _
    rw [show (0 : ℝ) + 1 * marchDist (Scene.mk 1 1 [⟨0, 0, 1, 2⟩] 64 10).sdf 0 0 1 0 0 = 0 by
          rw [marchDist]; ring,
        show (0 : ℝ) + 0 * marchDist (Scene.mk 1 1 [⟨0, 0, 1, 2⟩] 64 10).sdf 0 0 1 0 0 = 0 by
          rw [marchDist]; ring]
    exact sdf_single_circle_center 0 0 1 2 1 1 64 10 (by norm_num)
  have := (trace_hit_miss_spec (Scene.mk 1 1 [⟨0, 0, 1, 2⟩] 64 10) 0 0 1 0).1 0
    (by norm_num) (fun j hj => absurd hj (Nat.not_lt_zero j))
    (by rw [hq]; rw [EPSILON]; norm_num)
  rw [this, hq]

lemma trace_hit_first (s : Scene) (x y dx dy : ℝ) (hstep : 0 < s.maxStep)
    (hhit : (s.sdf x y).sd < EPSILON) : s.trace x y dx dy = (s.sdf x y).emissive := by
  obtain ⟨n, hn⟩ : ∃ n, s.maxStep = n + 1 := ⟨s.maxStep - 1, by omega⟩
  rw [Scene.trace, hn]
  simp only [traceAux, mul_zero, add_zero]
  rw [if_pos hhit]

/-- Claim C8: the written intensity is `clamp(mean · 255, 0, 255)` truncated
to an 8-bit value (the source's one-sided `if sum >= 255.0` clamp plus Rust's
saturating `as u8` cast realise exactly that); the same byte goes to all
three RGB channels of a pixel's slot; and a sample point whose scene query is
a hit with emissive `2.0` yields intensity exactly 255. -/
theorem sample_clamp_spec (s : Scene) (x y : ℝ) (jit : ℕ → ℝ)
    (jit2 : ℕ → ℕ → ℕ → ℝ) (p : ℕ) :
    s.sample x y jit = pixelIntensitySpec s x y jit
    ∧ (p < s.width * s.height →
        ((s.renderBuffer jit2)[3 * p]? = some (s.pixel jit2 (p % s.width) (p / s.width))
         ∧ (s.renderBuffer jit2)[3 * p + 1]? = some (s.pixel jit2 (p % s.width) (p / s.width))
         ∧ (s.renderBuffer jit2)[3 * p + 2]? = some (s.pixel jit2 (p % s.width) (p / s.width))))
    ∧ ((s.sdf x y).sd < EPSILON → (s.sdf x y).emissive = 2 → 0 < s.sampleCount →
        0 < s.maxStep → s.sample x y jit = 255) := by
  refine ⟨?_, ?_, ?_⟩
  · simp only [Scene.sample, pixelIntensitySpec, f64AsU8]
    set m := s.sampleSum x y jit / (s.sampleCount : ℝ) * 255 with hm
    by_cases h255 : 255 ≤ m
    · rw [if_pos h255, min_eq_left (le_trans h255 (le_max_right 0 m))]
      norm_num
    · push_neg at h255
      rw [if_neg (not_le.mpr h255)]
      by_cases h0 : m < 0
      · have hfl : ⌊m⌋ < 0 := by
          have h1 : (⌊m⌋ : ℝ) ≤ m := Int.floor_le m
          exact_mod_cast lt_of_le_of_lt h1 h0
        rw [min_eq_right (by omega : ⌊m⌋ ≤ (255 : ℤ)), max_eq_left (le_of_lt h0),
            min_eq_right (by norm_num : (0 : ℝ) ≤ 255), Int.floor_zero]
        omega
      · push_neg at h0
        have hfl : ⌊m⌋ < 255 := by
          have h1 : (⌊m⌋ : ℝ) ≤ m := Int.floor_le m
          exact_mod_cast lt_of_le_of_lt h1 h255
        rw [min_eq_right (by omega : ⌊m⌋ ≤ (255 : ℤ)), max_eq_right h0,
            min_eq_right (le_of_lt h255)]
  · intro hp
    refine ⟨?_, ?_, ?_⟩
    · rw [Scene.renderBuffer, List.getElem?_map,
        List.getElem?_range (by omega : 3 * p < s.width * s.height * 3)]
      simp only [Option.map_some']
      rw [show 3 * p / 3 = p from by omega]
    · rw [Scene.renderBuffer, List.getElem?_map,
        List.getElem?_range (by omega : 3 * p + 1 < s.width * s.height * 3)]
      simp only [Option.map_some']
      rw [show (3 * p + 1) / 3 = p from by omega]
    · rw [Scene.renderBuffer, List.getElem?_map,
        List.getElem?_range (by omega : 3 * p + 2 < s.width * s.height * 3)]
      simp only [Option.map_some']
      rw [show (3 * p + 2) / 3 = p from by omega]
  · intro hsd hem hn hstep
    have htr : ∀ dx dy : ℝ, s.trace x y dx dy = 2 := fun dx dy => by
      rw [trace_hit_first s x y dx dy hstep hsd, hem]
    have hsum : s.sampleSum x y jit = (s.sampleCount : ℝ) * 2 := by
      rw [Scene.sampleSum, Finset.sum_congr rfl (fun i _ => htr _ _),
        Finset.sum_const, Finset.card_range, nsmul_eq_mul]
    have hne : ((s.sampleCount : ℕ) : ℝ) ≠ 0 := Nat.cast_ne_zero.mpr (by omega)
    have h510 : (s.sampleCount : ℝ) * 2 / (s.sampleCount : ℝ) * 255 = 510 := by
      rw [mul_comm ((s.sampleCount : ℕ) : ℝ) 2, mul_div_assoc, div_self hne, mul_one]
      norm_num
    simp only [Scene.sample, hsum, h510]
    rw [if_pos (by norm_num : (255 : ℝ) ≤ 510), f64AsU8]
    norm_num
    rfl

/-- Witness for C8: a 1×1 scene holding `Circle(0, 0, 1, emissive 2)`.  The
origin pixel is inside the circle, so its intensity saturates at 255, and
byte 0 of the buffer is that pixel's first channel. -/
theorem sample_clamp_witness :
    (Scene.mk 1 1 [⟨0, 0, 1, 2⟩] 64 10).sample 0 0 (fun _ => 0) = 255
    ∧ ((Scene.mk 1 1 [⟨0, 0, 1, 2⟩] 64 10).renderBuffer (fun _ _ _ => 0))[0]?
        = some ((Scene.mk 1 1 [⟨0, 0, 1, 2⟩] 64 10).pixel (fun _ _ _ => 0) 0 0) := by
  have h := sample_clamp_spec (Scene.mk 1 1 [⟨0, 0, 1, 2⟩] 64 10) 0 0 (fun _ => 0)
    (fun _ _ _ => 0) 0
  have hsdf : (Scene.mk 1 1 [⟨0, 0, 1, 2⟩] 64 10).sdf 0 0 = ⟨-1, 2⟩ :=
    sdf_single_circle_center 0 0 1 2 1 1 64 10 (by norm_num)
  refine ⟨h.2.2 (by rw [hsdf]; rw [EPSILON]; norm_num) (by rw [hsdf]) (by norm_num)
    (by norm_num), ?_⟩
  have hb := (h.2.1 (by norm_num)).1
  simpa using hb

lemma maxDistance_le_f64Max (s : Scene) (hw : s.width < 2 ^ 32) :
    s.maxDistance ≤ f64Max := by
  rw [Scene.maxDistance]
  have h0 : (0 : ℝ) ≤ (s.width : ℝ) := Nat.cast_nonneg _
  have hle : (s.width : ℝ) ≤ 2 ^ 32 := by exact_mod_cast le_of_lt hw
  have hsq : ((s.width ^ 2 + s.width ^ 2 : ℕ) : ℝ) ≤ ((2 : ℝ) ^ 33) ^ 2 := by
    push_cast
    nlinarith
  calc Real.sqrt ((s.width ^ 2 + s.width ^ 2 : ℕ) : ℝ)
      ≤ Real.sqrt (((2 : ℝ) ^ 33) ^ 2) := Real.sqrt_le_sqrt hsq
    _ = (2 : ℝ) ^ 33 := Real.sqrt_sq (by positivity)
    _ ≤ f64Max := two_pow_33_le_f64Max

lemma trace_empty (s : Scene) (hshapes : s.shapes = []) (hw : s.width < 2 ^ 32)
    (x y dx dy : ℝ) : s.trace x y dx dy = 0 := by
  have hsdf : ∀ a b : ℝ, s.sdf a b = ⟨f64Max, 0⟩ := by
    intro a b
    rw [Scene.sdf, hshapes, List.foldl_nil]
  rw [Scene.trace]
  cases hms : s.maxStep with
  | zero => rfl
  | succ n =>
    simp only [traceAux, hsdf]
    rw [if_neg (not_lt.mpr epsilon_le_f64Max),
      if_pos (by rw [zero_add]; exact maxDistance_le_f64Max s hw)]

lemma sample_trace_zero (s : Scene) (x y : ℝ) (jit : ℕ → ℝ)
    (h : ∀ dx dy : ℝ, s.trace x y dx dy = 0) : s.sample x y jit = 0 := by
  have hsum : s.sampleSum x y jit = 0 := by
    rw [Scene.sampleSum]
    exact Finset.sum_eq_zero (fun i _ => h _ _)
  simp only [Scene.sample, hsum, zero_div, zero_mul]
  rw [if_neg (by norm_num : ¬(255 : ℝ) ≤ 0), f64AsU8]
  norm_num

/-- Claim C10: a Scene with an empty shape list renders every byte as 0 — the
scene-level SDF query returns the identity sample `{ sd: f64::MAX,
emissive: 0 }`, every trace immediately reaches `max_distance` and misses
with contribution 0, and the whole buffer is zeros.  `width < 2^32` is the
`u32` range of the source field. -/
theorem empty_scene_black (w h : ℕ) (hw : w < 2 ^ 32) (jit2 : ℕ → ℕ → ℕ → ℝ) :
    (∀ x y : ℝ, (Scene.new w h).sdf x y = ⟨f64Max, 0⟩)
    ∧ (∀ x y dx dy : ℝ, (Scene.new w h).trace x y dx dy = 0)
    ∧ (Scene.new w h).renderBuffer jit2 = List.replicate (w * h * 3) 0 := by
  have hsh : (Scene.new w h).shapes = [] := rfl
  have hww : (Scene.new w h).width < 2 ^ 32 := hw
  refine ⟨fun x y => rfl, fun x y dx dy => trace_empty _ hsh hww x y dx dy, ?_⟩
  rw [Scene.renderBuffer]
  refine List.eq_replicate_iff.mpr ⟨by simp [Scene.new], ?_⟩
  intro b hb
  rw [List.mem_map] at hb
  obtain ⟨k, _, hk⟩ := hb
  rw [← hk, Scene.pixel]
  exact sample_trace_zero _ _ _ _ (fun dx dy => trace_empty _ hsh hww _ _ dx dy)

/-- Witness for C10: a 2×1 empty scene renders as six zero bytes. -/
theorem empty_scene_black_witness :
    (Scene.new 2 1).renderBuffer (fun _ _ _ => 0) = List.replicate 6 0 := by
  have hb := (empty_scene_black 2 1 (by norm_num) (fun _ _ _ => 0)).2.2
  simpa using hb

end Light2D
